import Mathlib

/-!
Shallow embedding of `uiuccourse.py`: three HTML scanners driven by
(start-tag, data) events, and the caching `UIUCCourseFetcher` around them.
Markup tokenization (the `HTMLParser` base class) and HTTP transport
(`urllib2`) are external collaborators; the scanners are modelled at the
event level, and the fetcher is parametrised by an oracle `Env` giving the
parse result delivered for each requested URL, together with a ghost log of
the URLs requested.  Python exceptions are modelled with `Except`.
-/

/-- Python `dict` lookup `d.get(k)` over an association list (keys unique
when the list is built with `dset`). -/
def dget {α β : Type} [DecidableEq α] : List (α × β) → α → Option β
  | [], _ => none
  | (k', v) :: rest, k => if k' = k then some v else dget rest k

/-- Python `dict` assignment `d[k] = v`: replace in place, else append. -/
def dset {α β : Type} [DecidableEq α] : List (α × β) → α → β → List (α × β)
  | [], k, v => [(k, v)]
  | (k', v') :: rest, k, v =>
    if k' = k then (k, v) :: rest else (k', v') :: dset rest k v

/-- Python `dict(attrs)`: later occurrences of a key win. -/
def dictOf {α β : Type} [DecidableEq α] (l : List (α × β)) : List (α × β) :=
  l.foldl (fun d p => dset d p.1 p.2) []

/-- Python's whitespace class for `str.strip()` and `\s`. -/
def pyIsSpace (c : Char) : Bool :=
  c = ' ' ∨ c = '\t' ∨ c = '\n' ∨ c = '\r' ∨ c = '\x0b' ∨ c = '\x0c'

/-- Python `s.lower()` (ASCII, as in the source's inputs). -/
def pyLower (s : String) : String := ⟨s.data.map Char.toLower⟩

/-- Python `s.upper()` (ASCII, as in the source's inputs). -/
def pyUpper (s : String) : String := ⟨s.data.map Char.toUpper⟩

def pyStripList (l : List Char) : List Char :=
  ((l.dropWhile pyIsSpace).reverse.dropWhile pyIsSpace).reverse

/-- Python `s.strip()`: remove leading and trailing whitespace. -/
def pyStrip (s : String) : String := ⟨pyStripList s.data⟩

def splitOnSpaceAux : List Char → List Char → List (List Char)
  | [], acc => [acc.reverse]
  | c :: cs, acc =>
    if c = ' ' then acc.reverse :: splitOnSpaceAux cs []
    else splitOnSpaceAux cs (c :: acc)

/-- Python `s.split(' ')`: split on every single space character, keeping
empty pieces (`''.split(' ') == ['']`, `'a  b'.split(' ') == ['a','','b']`). -/
def pySplitSpace (s : String) : List String :=
  (splitOnSpaceAux s.data []).map (fun l => ⟨l⟩)

def digitsToNat? (l : List Char) : Option Nat :=
  if l ≠ [] ∧ l.all Char.isDigit then
    some (l.foldl (fun n c => 10 * n + (c.toNat - 48)) 0)
  else none

/-- Python `int(data)` on a string: optional surrounding whitespace, an
optional sign, then decimal digits; `none` models the `ValueError`. -/
def pyInt? (s : String) : Option Int :=
  match pyStripList s.data with
  | '-' :: rest => (digitsToNat? rest).map (fun n => -(n : Int))
  | '+' :: rest => (digitsToNat? rest).map (fun n => (n : Int))
  | l => (digitsToNat? l).map (fun n => (n : Int))

def collapseWSAux : List Char → Bool → List Char
  | [], _ => []
  | c :: cs, prevWS =>
    if pyIsSpace c then
      if prevWS then collapseWSAux cs true else ' ' :: collapseWSAux cs true
    else c :: collapseWSAux cs false

/-- Python `re.compile('\s+').sub(' ', s)`: collapse every whitespace run
to a single space. -/
def collapseWS (s : String) : String := ⟨collapseWSAux s.data false⟩

namespace UIUCCourseListParser

/-- Mutable state of `UIUCCourseListParser`. -/
structure CLState where
  course_no : List String
  ready : Bool
deriving DecidableEq, Repr

/-- State after `__init__`. -/
def init : CLState := ⟨[], false⟩

/-- `UIUCCourseListParser.handle_starttag` (source lines 53-58). -/
def handle_starttag (st : CLState) (tag : String) (attrs : List (String × String)) : CLState :=
  if pyLower tag = "div" ∧ dget (dictOf attrs) "class" = some "ws-course-number" then
    { st with ready := true }
  else
    { st with ready := false }

/-- `UIUCCourseListParser.handle_data` (source lines 60-62).
`data.split(' ')[1]` indexes the list obtained by splitting on the single
space character; the `[1]` raises `IndexError` when that list has fewer
than two elements. -/
def handle_data (st : CLState) (data : String) : Except String CLState :=
  if st.ready then
    match (pySplitSpace data).get? 1 with
    | some t => .ok { st with course_no := st.course_no ++ [t] }
    | none => .error "IndexError"
  else
    .ok st

end UIUCCourseListParser

namespace UIUCSectionListParser

/-- Mutable state of `UIUCSectionListParser`: the accumulated
CRN → (field → value) mapping, the current CRN and the active field. -/
structure SecState where
  sections : List (Int × List (String × String))
  current_crn : Option Int
  property_to_write : Option String
deriving DecidableEq, Repr

/-- State after `__init__`. -/
def init : SecState := ⟨[], none, none⟩

/-- The `self.headers` list of recognized column headers. -/
def headers : List String :=
  ["ws-crn", "ws-type", "ws-section", "ws-time",
   "ws-days", "ws-location", "ws-instructor"]

/-- Python `self.property_to_write[3:]`: the column header with its fixed
`ws-` three-character front stripped. -/
def shortName (prop : String) : String := ⟨prop.data.drop 3⟩

/-- `UIUCSectionListParser.handle_starttag` (source lines 79-87).
The source condition is
`tag.lower() == 'td' and (attrs.get('headers') in self.headers and
attrs.get('class').strip()) == 'ws-row'`: when the `headers` attribute is
recognized, Python evaluates `attrs.get('class').strip()`, which raises
`AttributeError` when the `class` attribute is absent (`None.strip()`);
when the membership test is false the inner `and` short-circuits to
`False`, `False == 'ws-row'` is false, and the active field is cleared. -/
def handle_starttag (st : SecState) (tag : String) (attrs : List (String × String)) :
    Except String SecState :=
  let a := dictOf attrs
  if pyLower tag = "br" ∧ st.property_to_write = some "ws-location" then
    .ok st
  else if pyLower tag = "td" then
    match dget a "headers" with
    | some h =>
      if h ∈ headers then
        match dget a "class" with
        | none => .error "AttributeError"
        | some c =>
          if pyStrip c = "ws-row" then .ok { st with property_to_write := some h }
          else .ok { st with property_to_write := none }
      else .ok { st with property_to_write := none }
    | none => .ok { st with property_to_write := none }
  else
    .ok { st with property_to_write := none }

/-- `UIUCSectionListParser.handle_data` (source lines 89-107).
In the `elif` branch the source re-tests `property_to_write == 'ws-crn'`;
that inner branch is unreachable (the first `if` already took it), so it is
not modelled.  `self.sections[self.current_crn]` would raise `KeyError` if
the key were absent (it never is in reachable states). -/
def handle_data (st : SecState) (data : String) : Except String SecState :=
  if st.property_to_write = some "ws-crn" then
    match pyInt? data with
    | some n => .ok { st with current_crn := some n, sections := dset st.sections n [] }
    | none => .ok { st with current_crn := none }
  else
    match st.current_crn, st.property_to_write with
    | some crn, some prop =>
      let d := collapseWS (pyStrip data)
      match dget st.sections crn with
      | none => .error "KeyError"
      | some current_section =>
        match dget current_section (shortName prop) with
        | none =>
          .ok { st with sections := dset st.sections crn (dset current_section (shortName prop) d) }
        | some old =>
          let appended := old ++ ", " ++ d
          .ok { st with sections := dset st.sections crn (dset current_section (shortName prop) appended) }
    | _, _ => .ok st

end UIUCSectionListParser

namespace UIUCCourseFetcher

/-- Result type of a section-list parse: CRN → (field → value). -/
abbrev SecMap := List (Int × List (String × String))

/-- Python dict keys for course numbers: callers pass either a string
(course numbers scraped by `UIUCCourseListParser`) or an int (as in
`fetch('CS', 493)`); they are distinct keys (`493 != "493"` in Python). -/
abbrev CKey := Sum String Int

/-- Python `str(course_no)` as used in the section URL. -/
def strOfCKey : CKey → String
  | .inl s => s
  | .inr n => toString n

/-- `if month < 5: 'spring' elif month < 8: 'summer' else: 'fall'`
(source lines 130-135, with `month = datetime.date.today().month`). -/
def inferTerm (month : Nat) : String :=
  if month < 5 then "spring" else if month < 8 then "summer" else "fall"

/-- Term resolution in `UIUCCourseFetcher.__init__` (source lines 126-135):
`term = term.lower() if term is not None else term`, then
`if term == None or (term != 'spring' or term != 'fall' or term != 'summer')`
replaces `term` by the month-inferred one.  The `else` arm (term kept) is
modelled by `getD ""`; it is unreachable, since no string equals all three
literals at once. -/
def resolveTerm (term : Option String) (month : Nat) : String :=
  let t := term.map pyLower
  if t = none ∨ t ≠ some "spring" ∨ t ≠ some "fall" ∨ t ≠ some "summer" then
    inferTerm month
  else
    t.getD ""

/-- The immutable `self.urls` dictionary. -/
structure Urls where
  root : String
  portal : String
deriving DecidableEq, Repr

/-- URL construction in `__init__` (source lines 137-142); `year` is
already defaulted (`datetime.date.today().year if year is None else year`),
and `month` stands for `datetime.date.today().month`. -/
def initUrls (year : Int) (term : Option String) (month : Nat) : Urls :=
  let t := resolveTerm term month
  let site_root := "http://courses.illinois.edu/cis/"
  ⟨site_root ++ toString year ++ "/" ++ t ++ "/schedule/",
   site_root ++ toString year ++ "/" ++ t ++ "/schedule/index.html"⟩

/-- Oracle for `__parse_url`: the parse result delivered for each
requested URL, per parser kind (transport + tokenization are external
collaborators). -/
structure Env where
  subjResult : List String
  courseResult : String → List String
  sectionResult : String → SecMap

/-- Mutable cache state of a fetcher instance, plus a ghost log of the
URLs requested by `__parse_url`, in order. -/
structure FetchState where
  subject_list : Option (List String)
  course_list : List (String × List String)
  section_list : List (String × List (CKey × SecMap))
  log : List String

/-- `UIUCCourseFetcher.flush` (source lines 221-224): clears the three
caches (the request log is a ghost and is kept). -/
def flush (st : FetchState) : FetchState :=
  { st with subject_list := none, course_list := [], section_list := [] }

/-- Cache state right after `__init__` (which calls `flush`). -/
def initState : FetchState := ⟨none, [], [], []⟩

/-- Python truthiness of `d.get(k)` when the values are lists/dicts:
falsy iff the key is absent or its value is empty. -/
def pyFalsyGet : Option (List α) → Bool
  | none => true
  | some l => l.isEmpty

/-- URL requested by `fetch_course_list`: `self.urls['root'] + subject.upper() + '/'`. -/
def courseUrl (u : Urls) (subject : String) : String :=
  u.root ++ pyUpper subject ++ "/"

/-- URL requested by `fetch_section_list`:
`self.urls['root'] + subject.upper() + '/' + str(course_no) + '.html'`. -/
def sectionUrl (u : Urls) (subject : String) (course_no : CKey) : String :=
  u.root ++ pyUpper subject ++ "/" ++ strOfCKey course_no ++ ".html"

/-- `UIUCCourseFetcher.fetch_subject_list` (source lines 161-165):
memoized via `self.subject_list == None`. -/
def fetch_subject_list (env : Env) (u : Urls) (st : FetchState) :
    List String × FetchState :=
  match st.subject_list with
  | some r => (r, st)
  | none =>
    (env.subjResult,
     { st with subject_list := some env.subjResult, log := st.log ++ [u.portal] })

/-- `UIUCCourseFetcher.fetch_course_list` (source lines 167-172): the
cache test is `if not self.course_list.get(subject)`, a truthiness test,
so an empty cached list is fetched again. -/
def fetch_course_list (env : Env) (u : Urls) (st : FetchState) (subject : String) :
    List String × FetchState :=
  if pyFalsyGet (dget st.course_list subject) then
    let url := courseUrl u subject
    let r := env.courseResult url
    (r, { st with course_list := dset st.course_list subject r, log := st.log ++ [url] })
  else
    ((dget st.course_list subject).getD [], st)

/-- `UIUCCourseFetcher.fetch_section_list` (source lines 174-180): both
levels are guarded by truthiness tests (`if not ...get(...)`), so an empty
cached section dict is fetched again. -/
def fetch_section_list (env : Env) (u : Urls) (st : FetchState)
    (subject : String) (course_no : CKey) : SecMap × FetchState :=
  let st :=
    if pyFalsyGet (dget st.section_list subject) then
      { st with section_list := dset st.section_list subject [] }
    else st
  let inner := (dget st.section_list subject).getD []
  if pyFalsyGet (dget inner course_no) then
    let url := sectionUrl u subject course_no
    let r := env.sectionResult url
    (r, { st with section_list := dset st.section_list subject (dset inner course_no r),
                  log := st.log ++ [url] })
  else
    ((dget inner course_no).getD [], st)

/-- The runtime type of `fetch`'s `subject` argument: `None`, a single
string, or a list of subjects. -/
inductive SubjArg
  | nil
  | str (s : String)
  | list (l : List String)

/-- Inner loop of `fetch` (source line 216-217): for each `course` in the
course list, `section_list[subject][course] = self.fetch_section_list(subject, course)`,
threading the cache state. -/
def fetchCourses (env : Env) (u : Urls) (subject : String) :
    List String → List (CKey × SecMap) × FetchState → List (CKey × SecMap) × FetchState
  | [], acc => acc
  | course :: rest, (inner, st) =>
    let (r, st') := fetch_section_list env u st subject (.inl course)
    fetchCourses env u subject rest (dset inner (.inl course) r, st')

/-- Outer loop of `fetch` (source lines 212-219).  The local
`course_list` dict accumulated by the source is never returned and its
entries are only read in the same iteration that writes them, so it is not
threaded here. -/
def fetchLoop (env : Env) (u : Urls) :
    List String → List (String × List (CKey × SecMap)) → FetchState →
    List (String × List (CKey × SecMap)) × FetchState
  | [], out, st => (out, st)
  | subject :: rest, out, st =>
    let (cl, st1) := fetch_course_list env u st subject
    let (inner, st2) := fetchCourses env u subject cl ([], st1)
    fetchLoop env u rest (dset out subject inner) st2

/-- `UIUCCourseFetcher.fetch` (source lines 185-219): dispatch on the
runtime type of `subject`, then the enumeration loop. -/
def fetch (env : Env) (u : Urls) (st : FetchState)
    (subject : SubjArg) (course_no : Option CKey) :
    List (String × List (CKey × SecMap)) × FetchState :=
  match subject, course_no with
  | .str s, some c =>
    let (r, st') := fetch_section_list env u st s c
    ([(s, [(c, r)])], st')
  | .str s, none => fetchLoop env u [s] [] st
  | .list l, _ => fetchLoop env u l [] st
  | .nil, _ =>
    let (sl, st') := fetch_subject_list env u st
    fetchLoop env u sl [] st'

/-- Cache consistency: every cached entry equals what the oracle delivers
for the corresponding URL.  Holds for the flushed state and is preserved
by every fetch method. -/
def consistent (env : Env) (u : Urls) (st : FetchState) : Prop :=
  (∀ r, st.subject_list = some r → r = env.subjResult) ∧
  (∀ s r, dget st.course_list s = some r → r = env.courseResult (courseUrl u s)) ∧
  (∀ s inner c r, dget st.section_list s = some inner → dget inner c = some r →
      r = env.sectionResult (sectionUrl u s c))

/-- Pure recomputation of the inner loop of `fetch`: the per-subject
course → sections dict, read directly off the oracle. -/
def pureCourses (env : Env) (u : Urls) (s : String) :
    List String → List (CKey × SecMap) → List (CKey × SecMap)
  | [], inner => inner
  | c :: rest, inner =>
    pureCourses env u s rest (dset inner (.inl c) (env.sectionResult (sectionUrl u s (.inl c))))

/-- The subject entry `fetch` builds for one subject: its course list from
the oracle, each course mapped to its oracle section list. -/
def subjectEntry (env : Env) (u : Urls) (s : String) : List (CKey × SecMap) :=
  pureCourses env u s (env.courseResult (courseUrl u s)) []

/-- Pure recomputation of the outer loop of `fetch` over a subject list. -/
def pureLoop (env : Env) (u : Urls) :
    List String → List (String × List (CKey × SecMap)) → List (String × List (CKey × SecMap))
  | [], out => out
  | s :: rest, out => pureLoop env u rest (dset out s (subjectEntry env u s))

/-- Concrete oracle used by witnesses: every course-list URL yields two
courses, every section-list URL yields one section. -/
def sampleEnv : Env :=
  ⟨["CS"], fun _ => ["101", "493"], fun _ => [(31260, [("days", "W")])]⟩

/-- Concrete oracle whose course-list and section-list parses are empty. -/
def emptyEnv : Env := ⟨[], fun _ => [], fun _ => []⟩

/-- Concrete `self.urls` used by witnesses. -/
def sampleUrls : Urls := ⟨"r/", "p"⟩

end UIUCCourseFetcher

namespace UIUCSectionListParser

/-- The condition under which `handle_starttag` sets the active field to
`h`: a `td` tag whose `headers` attribute is the recognized `h` and whose
`class` attribute strips to `ws-row`. -/
def tagMatches (tag : String) (attrs : List (String × String)) (h : String) : Prop :=
  pyLower tag = "td" ∧ dget (dictOf attrs) "headers" = some h ∧ h ∈ headers ∧
    ∃ c, dget (dictOf attrs) "class" = some c ∧ pyStrip c = "ws-row"

/-- The state produced by a field write: the current section record gains
(or extends) the entry under `key`. -/
def writeField (st : SecState) (crn : Int) (sec : List (String × String))
    (key val : String) : SecState :=
  { st with sections := dset st.sections crn (dset sec key val) }

end UIUCSectionListParser

theorem dget_dset {α β : Type} [DecidableEq α] (d : List (α × β)) (k k' : α) (v : β) :
    dget (dset d k v) k' = if k = k' then some v else dget d k' := by
  induction d with
  | nil => simp [dset, dget]
  | cons p rest ih =>
    obtain ⟨k0, v0⟩ := p
    by_cases h0 : k0 = k
    · subst h0
      by_cases h1 : k0 = k'
      · subst h1; simp [dset, dget]
      · simp [dset, dget, h1]
    · by_cases h1 : k0 = k'
      · subst h1
        have hkk : ¬ k = k0 := fun h => h0 h.symm
        simp [dset, dget, h0, hkk]
      · simp [dset, dget, h0, h1, ih]

theorem dget_dset_self {α β : Type} [DecidableEq α] (d : List (α × β)) (k : α) (v : β) :
    dget (dset d k v) k = some v := by
  simp [dget_dset]

theorem dget_dset_ne {α β : Type} [DecidableEq α] (d : List (α × β)) (k k' : α) (v : β)
    (h : k ≠ k') : dget (dset d k v) k' = dget d k' := by
  simp [dget_dset, h]

theorem dset_ne_nil {α β : Type} [DecidableEq α] (d : List (α × β)) (k : α) (v : β) :
    dset d k v ≠ [] := by
  cases d with
  | nil => simp [dset]
  | cons p rest => simp only [dset]; split <;> simp

theorem dset_dset {α β : Type} [DecidableEq α] (d : List (α × β)) (k : α) (v w : β) :
    dset (dset d k v) k w = dset d k w := by
  induction d with
  | nil => simp [dset]
  | cons p rest ih =>
    obtain ⟨k0, v0⟩ := p
    by_cases h0 : k0 = k
    · subst h0; simp [dset]
    · simp [dset, h0, ih]

theorem dget_nil {α β : Type} [DecidableEq α] (k : α) : dget ([] : List (α × β)) k = none := rfl

theorem pyFalsyGet_none {α : Type} :
    UIUCCourseFetcher.pyFalsyGet (none : Option (List α)) = true := rfl

theorem pyFalsyGet_false {α : Type} {o : Option (List α)}
    (h : UIUCCourseFetcher.pyFalsyGet o = false) : ∃ l, o = some l ∧ l ≠ [] := by
  cases o with
  | none => simp [UIUCCourseFetcher.pyFalsyGet] at h
  | some l =>
    exact ⟨l, rfl, by simpa [UIUCCourseFetcher.pyFalsyGet, List.isEmpty_iff] using h⟩

theorem pyFalsyGet_some_ne {α : Type} (l : List α) (h : l ≠ []) :
    UIUCCourseFetcher.pyFalsyGet (some l) = false := by
  simp [UIUCCourseFetcher.pyFalsyGet, List.isEmpty_iff, h]

/-- C1: every explicitly supplied `term` argument is rejected by the
term-validity check in `__init__`, so the resolved term — and hence the
constructed root and portal URLs — always come from the month-based
inference (before May → spring, before August → summer, otherwise fall),
never from the supplied term. -/
theorem UIUCCourseFetcher.term_argument_ignored (t : String) (year : Int) (month : Nat) :
    UIUCCourseFetcher.resolveTerm (some t) month = UIUCCourseFetcher.inferTerm month ∧
    UIUCCourseFetcher.initUrls year (some t) month = UIUCCourseFetcher.initUrls year none month ∧
    (month < 5 → UIUCCourseFetcher.resolveTerm (some t) month = "spring") ∧
    (5 ≤ month → month < 8 → UIUCCourseFetcher.resolveTerm (some t) month = "summer") ∧
    (8 ≤ month → UIUCCourseFetcher.resolveTerm (some t) month = "fall")
    := by
  have hignored : ∀ (t' : String) (m : Nat),
      UIUCCourseFetcher.resolveTerm (some t') m = UIUCCourseFetcher.inferTerm m := by
    intro t' m
    have hcond : ((some t').map pyLower = none ∨
        (some t').map pyLower ≠ some "spring" ∨
        (some t').map pyLower ≠ some "fall" ∨
        (some t').map pyLower ≠ some "summer") := by
      by_cases h : pyLower t' = "spring"
      · right; right; left; simp [Option.map, h]
      · right; left; simp [Option.map, h]
    simp only [UIUCCourseFetcher.resolveTerm]
    rw [if_pos hcond]
  have hnone : ∀ (m : Nat),
      UIUCCourseFetcher.resolveTerm none m = UIUCCourseFetcher.inferTerm m := by
    intro m
    simp [UIUCCourseFetcher.resolveTerm]
  refine ⟨hignored t month, ?_, ?_, ?_, ?_⟩
  · simp only [UIUCCourseFetcher.initUrls, hignored, hnone]
  · intro h; simp [UIUCCourseFetcher.inferTerm, hignored, h]
  · intro h5 h8
    have : ¬ month < 5 := by omega
    simp [UIUCCourseFetcher.inferTerm, hignored, this, h8]
  · intro h8
    have h1 : ¬ month < 5 := by omega
    have h2 : ¬ month < 8 := by omega
    simp [UIUCCourseFetcher.inferTerm, hignored, h1, h2]

/-- Witness for C1: a supplied term `"fall"` is overridden to `"spring"`
in March, and a supplied `"Summer"` is overridden to `"fall"` in
September. -/
theorem UIUCCourseFetcher.term_argument_ignored_witness :
    UIUCCourseFetcher.resolveTerm (some "fall") 3 = "spring" ∧
    UIUCCourseFetcher.resolveTerm (some "Summer") 9 = "fall" := by
  constructor
  · exact (UIUCCourseFetcher.term_argument_ignored "fall" 2011 3).2.2.1 (by decide)
  · exact (UIUCCourseFetcher.term_argument_ignored "Summer" 2011 9).2.2.2.2 (by decide)

/-- C2 (code bug): a `td` start tag with a recognized `headers` attribute
but no `class` attribute makes `handle_starttag` evaluate
`None.strip()`, raising `AttributeError` instead of treating the tag as
"no match". -/
theorem UIUCSectionListParser.missing_class_attribute_raises :
    UIUCSectionListParser.handle_starttag UIUCSectionListParser.init "td"
        [("headers", "ws-crn")] = .error "AttributeError" := by
  rfl

/-- Counterexample to C3: with the active-field marker set, a label with a
single space-separated token makes `handle_data` raise `IndexError`
(`data.split(' ')[1]` on a one-element list) instead of skipping silently. -/
theorem UIUCCourseListParser.single_token_label_raises :
    UIUCCourseListParser.handle_data ⟨[], true⟩ "CS" = .error "IndexError" := by
  rfl

/-- C3 as amended: while the active-field marker is set, a label that
splits (on the single space character) into fewer than two pieces makes
`handle_data` raise `IndexError` and nothing is appended; otherwise the
second piece is appended to the course list. -/
theorem UIUCCourseListParser.handle_data_second_token
    (st : UIUCCourseListParser.CLState) (data : String) (h : st.ready = true) :
    (((pySplitSpace data).get? 1).isNone →
        UIUCCourseListParser.handle_data st data = .error "IndexError") ∧
    (∀ t, (pySplitSpace data).get? 1 = some t →
        UIUCCourseListParser.handle_data st data =
          .ok { st with course_no := st.course_no ++ [t] }) := by
  constructor
  · intro hn
    rw [Option.isNone_iff_eq_none, List.get?_eq_getElem?] at hn
    simp [UIUCCourseListParser.handle_data, h, hn]
  · intro t ht
    rw [List.get?_eq_getElem?] at ht
    simp [UIUCCourseListParser.handle_data, h, ht]

/-- Witness for C3's amended claim: a two-token label appends its second
token, and for the one-token label the raising branch is reached. -/
theorem UIUCCourseListParser.handle_data_second_token_witness :
    UIUCCourseListParser.handle_data ⟨[], true⟩ "CS 493" = .ok ⟨["493"], true⟩ ∧
    UIUCCourseListParser.handle_data ⟨[], true⟩ "CS" = .error "IndexError" := by
  constructor
  · exact (UIUCCourseListParser.handle_data_second_token ⟨[], true⟩ "CS 493" rfl).2 "493" rfl
  · exact (UIUCCourseListParser.handle_data_second_token ⟨[], true⟩ "CS" rfl).1 rfl

/-- C5: in the `crn` field state, integer text becomes the current CRN and
a fresh empty Section record keyed by it is created (overwriting any
existing record for that CRN); non-integer text clears the current CRN and
creates no record; and while the current CRN is cleared, text in any
non-`crn` field state is dropped with the whole state unchanged. -/
theorem UIUCSectionListParser.crn_state_transitions :
    (∀ (st : UIUCSectionListParser.SecState) (data : String) (n : Int),
        st.property_to_write = some "ws-crn" → pyInt? data = some n →
        UIUCSectionListParser.handle_data st data =
          .ok { st with current_crn := some n, sections := dset st.sections n [] }) ∧
    (∀ (st : UIUCSectionListParser.SecState) (data : String),
        st.property_to_write = some "ws-crn" → pyInt? data = none →
        UIUCSectionListParser.handle_data st data = .ok { st with current_crn := none }) ∧
    (∀ (st : UIUCSectionListParser.SecState) (data : String),
        st.current_crn = none → st.property_to_write ≠ some "ws-crn" →
        UIUCSectionListParser.handle_data st data = .ok st) := by
  refine ⟨?_, ?_, ?_⟩
  · intro st data n hp hi
    simp [UIUCSectionListParser.handle_data, hp, hi]
  · intro st data hp hi
    simp [UIUCSectionListParser.handle_data, hp, hi]
  · intro st data hc hp
    simp only [UIUCSectionListParser.handle_data, hp, if_neg, hc]
    cases hq : st.property_to_write <;> simp

/-- Witness for C5: `"31260"` creates a fresh record for CRN 31260
(overwriting the old one), `"abc"` clears the CRN, and subsequent field
text with no CRN leaves the state unchanged. -/
theorem UIUCSectionListParser.crn_state_transitions_witness :
    UIUCSectionListParser.handle_data ⟨[(31260, [("days", "W")])], none, some "ws-crn"⟩ "31260" =
      .ok ⟨[(31260, [])], some 31260, some "ws-crn"⟩ ∧
    UIUCSectionListParser.handle_data ⟨[(1, [])], some 1, some "ws-crn"⟩ "abc" =
      .ok ⟨[(1, [])], none, some "ws-crn"⟩ ∧
    UIUCSectionListParser.handle_data ⟨[(1, [])], none, some "ws-days"⟩ "MWF" =
      .ok ⟨[(1, [])], none, some "ws-days"⟩ := by
  refine ⟨?_, ?_, ?_⟩
  · exact UIUCSectionListParser.crn_state_transitions.1
      ⟨[(31260, [("days", "W")])], none, some "ws-crn"⟩ "31260" 31260 rfl rfl
  · exact UIUCSectionListParser.crn_state_transitions.2.1
      ⟨[(1, [])], some 1, some "ws-crn"⟩ "abc" rfl rfl
  · exact UIUCSectionListParser.crn_state_transitions.2.2
      ⟨[(1, [])], none, some "ws-days"⟩ "MWF" rfl (by simp)

/-- C8: a line-break tag received while the active field is `ws-location`
leaves the whole scanner state unchanged; every other start tag that does
not match a recognized data cell (and does not raise) clears the active
field and nothing else; and consequently location text before and after a
`br` is joined with ", " into one location value. -/
theorem UIUCSectionListParser.br_location_preserves_state :
    (∀ (st : UIUCSectionListParser.SecState) (tag : String) (attrs : List (String × String)),
        pyLower tag = "br" → st.property_to_write = some "ws-location" →
        UIUCSectionListParser.handle_starttag st tag attrs = .ok st) ∧
    (∀ (st st' : UIUCSectionListParser.SecState) (tag : String) (attrs : List (String × String)),
        ¬ (pyLower tag = "br" ∧ st.property_to_write = some "ws-location") →
        (¬ ∃ h, UIUCSectionListParser.tagMatches tag attrs h) →
        UIUCSectionListParser.handle_starttag st tag attrs = .ok st' →
        st' = { st with property_to_write := none }) ∧
    ((UIUCSectionListParser.handle_data ⟨[(100, [])], some 100, some "ws-location"⟩ "room 1105").bind
        (fun s1 => (UIUCSectionListParser.handle_starttag s1 "br" []).bind
          (fun s2 => UIUCSectionListParser.handle_data s2 "Siebel Center")) =
      .ok ⟨[(100, [("location", "room 1105, Siebel Center")])], some 100, some "ws-location"⟩) := by
  refine ⟨?_, ?_, ?_⟩
  · intro st tag attrs h1 h2
    simp [UIUCSectionListParser.handle_starttag, h1, h2]
  · intro st st' tag attrs hbr hnm heq
    simp only [UIUCSectionListParser.handle_starttag] at heq
    rw [if_neg hbr] at heq
    by_cases htd : pyLower tag = "td"
    · rw [if_pos htd] at heq
      split at heq
      next h hh =>
        split at heq
        next hmem =>
          split at heq
          next hc => simp at heq
          next c hc =>
            split at heq
            next hrow => exact absurd ⟨h, htd, hh, hmem, c, hc, hrow⟩ hnm
            next hrow => exact (Except.ok.inj heq).symm
        next hmem => exact (Except.ok.inj heq).symm
      next hh => exact (Except.ok.inj heq).symm
    · rw [if_neg htd] at heq
      exact (Except.ok.inj heq).symm
  · rfl

/-- Witness for C8: a `br` with unrelated attributes in the `ws-location`
state is a complete no-op, and a `p` tag in the `ws-days` state clears
only the active field. -/
theorem UIUCSectionListParser.br_location_preserves_state_witness :
    UIUCSectionListParser.handle_starttag ⟨[], none, some "ws-location"⟩ "br" [("clear", "all")] =
      .ok ⟨[], none, some "ws-location"⟩ ∧
    (⟨[], some 5, none⟩ : UIUCSectionListParser.SecState) =
      { (⟨[], some 5, some "ws-days"⟩ : UIUCSectionListParser.SecState) with
          property_to_write := none } := by
  constructor
  · exact UIUCSectionListParser.br_location_preserves_state.1
      ⟨[], none, some "ws-location"⟩ "br" [("clear", "all")] rfl rfl
  · exact UIUCSectionListParser.br_location_preserves_state.2.1
      ⟨[], some 5, some "ws-days"⟩ ⟨[], some 5, none⟩ "p" []
      (by decide) (fun hx => absurd hx.choose_spec.1 (by decide)) rfl

/-- C9: in a non-`crn` field state with a valid current CRN, the first
text datum for a field is stored as-is after whitespace normalization, and
a further datum for the same field is appended to the existing value with
", " as separator rather than overwriting it. -/
theorem UIUCSectionListParser.field_text_appends
    (st : UIUCSectionListParser.SecState) (data : String) (crn : Int) (prop : String)
    (sec : List (String × String))
    (hp : st.property_to_write = some prop) (hne : prop ≠ "ws-crn")
    (hc : st.current_crn = some crn) (hs : dget st.sections crn = some sec) :
    (dget sec (UIUCSectionListParser.shortName prop) = none →
      UIUCSectionListParser.handle_data st data =
        .ok (UIUCSectionListParser.writeField st crn sec (UIUCSectionListParser.shortName prop)
          (collapseWS (pyStrip data)))) ∧
    (∀ old, dget sec (UIUCSectionListParser.shortName prop) = some old →
      UIUCSectionListParser.handle_data st data =
        .ok (UIUCSectionListParser.writeField st crn sec (UIUCSectionListParser.shortName prop)
          (old ++ ", " ++ collapseWS (pyStrip data)))) := by
  constructor
  · intro hfirst
    simp [UIUCSectionListParser.handle_data, hne, hp, hc, hs, hfirst,
      UIUCSectionListParser.writeField]
  · intro old hold
    simp [UIUCSectionListParser.handle_data, hne, hp, hc, hs, hold,
      UIUCSectionListParser.writeField]

/-- Witness for C9: a second datum for `days` is appended as
`"MW, F"`, and a first datum for `time` is stored whitespace-normalized. -/
theorem UIUCSectionListParser.field_text_appends_witness :
    UIUCSectionListParser.handle_data ⟨[(7, [("days", "MW")])], some 7, some "ws-days"⟩ " F " =
      .ok ⟨[(7, [("days", "MW, F")])], some 7, some "ws-days"⟩ ∧
    UIUCSectionListParser.handle_data ⟨[(7, [])], some 7, some "ws-time"⟩ "  9:00   AM " =
      .ok ⟨[(7, [("time", "9:00 AM")])], some 7, some "ws-time"⟩ := by
  constructor
  · exact (UIUCSectionListParser.field_text_appends
      ⟨[(7, [("days", "MW")])], some 7, some "ws-days"⟩ " F " 7 "ws-days"
      [("days", "MW")] rfl (by decide) rfl rfl).2 "MW" rfl
  · exact (UIUCSectionListParser.field_text_appends
      ⟨[(7, [])], some 7, some "ws-time"⟩ "  9:00   AM " 7 "ws-time"
      [] rfl (by decide) rfl rfl).1 rfl

theorem UIUCCourseFetcher.fetch_section_list_effects (env : UIUCCourseFetcher.Env)
    (u : UIUCCourseFetcher.Urls) (st : UIUCCourseFetcher.FetchState) (s : String)
    (c : UIUCCourseFetcher.CKey) :
    (UIUCCourseFetcher.fetch_section_list env u st s c).2.subject_list = st.subject_list ∧
    (UIUCCourseFetcher.fetch_section_list env u st s c).2.course_list = st.course_list ∧
    ((UIUCCourseFetcher.fetch_section_list env u st s c).2.log = st.log ∨
     (UIUCCourseFetcher.fetch_section_list env u st s c).2.log =
       st.log ++ [UIUCCourseFetcher.sectionUrl u s c]) := by
  unfold UIUCCourseFetcher.fetch_section_list
  split <;> (simp only []; split <;> simp)

/-- C7: `fetch` with a single subject string and a course number returns
exactly the one-entry nested mapping `{subject: {courseNo: sections}}`,
leaves the subject-list and course-list caches untouched, and requests at
most the one section-list URL (none when it was cached). -/
theorem UIUCCourseFetcher.fetch_single_course (env : UIUCCourseFetcher.Env)
    (u : UIUCCourseFetcher.Urls) (st : UIUCCourseFetcher.FetchState) (s : String)
    (c : UIUCCourseFetcher.CKey) :
    (UIUCCourseFetcher.fetch env u st (.str s) (some c)).1 =
      [(s, [(c, (UIUCCourseFetcher.fetch_section_list env u st s c).1)])] ∧
    (UIUCCourseFetcher.fetch env u st (.str s) (some c)).2 =
      (UIUCCourseFetcher.fetch_section_list env u st s c).2 ∧
    (UIUCCourseFetcher.fetch env u st (.str s) (some c)).2.subject_list = st.subject_list ∧
    (UIUCCourseFetcher.fetch env u st (.str s) (some c)).2.course_list = st.course_list ∧
    ((UIUCCourseFetcher.fetch env u st (.str s) (some c)).2.log = st.log ∨
     (UIUCCourseFetcher.fetch env u st (.str s) (some c)).2.log =
       st.log ++ [UIUCCourseFetcher.sectionUrl u s c]) := by
  have he := UIUCCourseFetcher.fetch_section_list_effects env u st s c
  exact ⟨rfl, rfl, he.1, he.2.1, he.2.2⟩

/-- C10: cache keys are the subject exactly as passed (case-sensitive)
while the requested URL uppercases the subject, so two fetch_course_list
(or fetch_section_list) calls whose subjects differ only in letter case
request the same URL twice and leave two separate cache entries. -/
theorem UIUCCourseFetcher.case_sensitive_cache (env : UIUCCourseFetcher.Env)
    (u : UIUCCourseFetcher.Urls) (s1 s2 : String) (c : UIUCCourseFetcher.CKey)
    (hne : s1 ≠ s2) (hup : pyUpper s1 = pyUpper s2) :
    ((UIUCCourseFetcher.fetch_course_list env u
        ((UIUCCourseFetcher.fetch_course_list env u UIUCCourseFetcher.initState s1).2) s2).2.log =
      [UIUCCourseFetcher.courseUrl u s1, UIUCCourseFetcher.courseUrl u s1]) ∧
    (dget (UIUCCourseFetcher.fetch_course_list env u
        ((UIUCCourseFetcher.fetch_course_list env u UIUCCourseFetcher.initState s1).2) s2).2.course_list s1 =
      some (env.courseResult (UIUCCourseFetcher.courseUrl u s1))) ∧
    (dget (UIUCCourseFetcher.fetch_course_list env u
        ((UIUCCourseFetcher.fetch_course_list env u UIUCCourseFetcher.initState s1).2) s2).2.course_list s2 =
      some (env.courseResult (UIUCCourseFetcher.courseUrl u s1))) ∧
    ((UIUCCourseFetcher.fetch_section_list env u
        ((UIUCCourseFetcher.fetch_section_list env u UIUCCourseFetcher.initState s1 c).2) s2 c).2.log =
      [UIUCCourseFetcher.sectionUrl u s1 c, UIUCCourseFetcher.sectionUrl u s1 c]) ∧
    (dget (UIUCCourseFetcher.fetch_section_list env u
        ((UIUCCourseFetcher.fetch_section_list env u UIUCCourseFetcher.initState s1 c).2) s2 c).2.section_list s1 =
      some [(c, env.sectionResult (UIUCCourseFetcher.sectionUrl u s1 c))]) ∧
    (dget (UIUCCourseFetcher.fetch_section_list env u
        ((UIUCCourseFetcher.fetch_section_list env u UIUCCourseFetcher.initState s1 c).2) s2 c).2.section_list s2 =
      some [(c, env.sectionResult (UIUCCourseFetcher.sectionUrl u s1 c))]) := by
  have hne' : s2 ≠ s1 := fun h => hne h.symm
  have hcu : UIUCCourseFetcher.courseUrl u s2 = UIUCCourseFetcher.courseUrl u s1 := by
    simp [UIUCCourseFetcher.courseUrl, hup]
  have hsu : UIUCCourseFetcher.sectionUrl u s2 c = UIUCCourseFetcher.sectionUrl u s1 c := by
    simp [UIUCCourseFetcher.sectionUrl, hup]
  refine ⟨?_, ?_, ?_, ?_, ?_, ?_⟩ <;>
    simp [UIUCCourseFetcher.fetch_course_list, UIUCCourseFetcher.fetch_section_list,
      UIUCCourseFetcher.initState, UIUCCourseFetcher.pyFalsyGet, dget, dset, hne, hne', hcu, hsu]

/-- Witness for C10: `"cs"` and `"CS"` differ as cache keys but uppercase
to the same URL, which is requested twice. -/
theorem UIUCCourseFetcher.case_sensitive_cache_witness :
    ("cs" ≠ "CS" ∧ pyUpper "cs" = pyUpper "CS") ∧
    (UIUCCourseFetcher.fetch_course_list UIUCCourseFetcher.sampleEnv UIUCCourseFetcher.sampleUrls
        ((UIUCCourseFetcher.fetch_course_list UIUCCourseFetcher.sampleEnv
          UIUCCourseFetcher.sampleUrls UIUCCourseFetcher.initState "cs").2) "CS").2.log =
      [UIUCCourseFetcher.courseUrl UIUCCourseFetcher.sampleUrls "cs",
       UIUCCourseFetcher.courseUrl UIUCCourseFetcher.sampleUrls "cs"] := by
  refine ⟨⟨by decide, by decide⟩, ?_⟩
  exact (UIUCCourseFetcher.case_sensitive_cache UIUCCourseFetcher.sampleEnv
    UIUCCourseFetcher.sampleUrls "cs" "CS" (.inl "101") (by decide) (by decide)).1

theorem UIUCCourseFetcher.fetch_subject_list_idem (env : UIUCCourseFetcher.Env)
    (u : UIUCCourseFetcher.Urls) (st : UIUCCourseFetcher.FetchState) :
    UIUCCourseFetcher.fetch_subject_list env u
        (UIUCCourseFetcher.fetch_subject_list env u st).2 =
      UIUCCourseFetcher.fetch_subject_list env u st := by
  cases h : st.subject_list <;> simp [UIUCCourseFetcher.fetch_subject_list, h]

theorem UIUCCourseFetcher.fetch_course_list_idem (env : UIUCCourseFetcher.Env)
    (u : UIUCCourseFetcher.Urls) (st : UIUCCourseFetcher.FetchState) (s : String)
    (hne : (UIUCCourseFetcher.fetch_course_list env u st s).1 ≠ []) :
    UIUCCourseFetcher.fetch_course_list env u
        (UIUCCourseFetcher.fetch_course_list env u st s).2 s =
      UIUCCourseFetcher.fetch_course_list env u st s := by
  by_cases h1 : UIUCCourseFetcher.pyFalsyGet (dget st.course_list s) = true
  · have hv : UIUCCourseFetcher.fetch_course_list env u st s =
        (env.courseResult (UIUCCourseFetcher.courseUrl u s),
         { st with course_list := dset st.course_list s (env.courseResult (UIUCCourseFetcher.courseUrl u s)), log := st.log ++ [UIUCCourseFetcher.courseUrl u s] }) := by
      simp [UIUCCourseFetcher.fetch_course_list, h1]
    rw [hv] at hne ⊢
    simp only at hne
    simp [UIUCCourseFetcher.fetch_course_list, dget_dset_self, pyFalsyGet_some_ne _ hne]
  · have hv : UIUCCourseFetcher.fetch_course_list env u st s =
        ((dget st.course_list s).getD [], st) := by
      simp [UIUCCourseFetcher.fetch_course_list, h1]
    rw [hv]
    exact hv

theorem UIUCCourseFetcher.fetch_section_list_idem (env : UIUCCourseFetcher.Env)
    (u : UIUCCourseFetcher.Urls) (st : UIUCCourseFetcher.FetchState) (s : String)
    (c : UIUCCourseFetcher.CKey)
    (hne : (UIUCCourseFetcher.fetch_section_list env u st s c).1 ≠ []) :
    UIUCCourseFetcher.fetch_section_list env u
        (UIUCCourseFetcher.fetch_section_list env u st s c).2 s c =
      UIUCCourseFetcher.fetch_section_list env u st s c := by
  by_cases h1 : UIUCCourseFetcher.pyFalsyGet (dget st.section_list s) = true
  · have hv : UIUCCourseFetcher.fetch_section_list env u st s c =
        (env.sectionResult (UIUCCourseFetcher.sectionUrl u s c),
         { st with section_list := dset (dset st.section_list s []) s (dset [] c (env.sectionResult (UIUCCourseFetcher.sectionUrl u s c))), log := st.log ++ [UIUCCourseFetcher.sectionUrl u s c] }) := by
      simp [UIUCCourseFetcher.fetch_section_list, h1, dget_dset_self, dget_nil, pyFalsyGet_none]
    rw [hv] at hne ⊢
    simp only at hne
    simp [UIUCCourseFetcher.fetch_section_list, dget_dset_self,
      pyFalsyGet_some_ne _
        (dset_ne_nil ([] : List (UIUCCourseFetcher.CKey × UIUCCourseFetcher.SecMap)) c _),
      pyFalsyGet_some_ne _ hne]
  · obtain ⟨inner0, hi0, hi0ne⟩ := pyFalsyGet_false (Bool.not_eq_true _ |>.mp h1)
    by_cases h2 : UIUCCourseFetcher.pyFalsyGet (dget inner0 c) = true
    · have hv : UIUCCourseFetcher.fetch_section_list env u st s c =
          (env.sectionResult (UIUCCourseFetcher.sectionUrl u s c),
           { st with section_list := dset st.section_list s (dset inner0 c (env.sectionResult (UIUCCourseFetcher.sectionUrl u s c))), log := st.log ++ [UIUCCourseFetcher.sectionUrl u s c] }) := by
        simp [UIUCCourseFetcher.fetch_section_list, hi0, pyFalsyGet_some_ne _ hi0ne, h2]
      rw [hv] at hne ⊢
      simp only at hne
      simp [UIUCCourseFetcher.fetch_section_list, dget_dset_self,
        pyFalsyGet_some_ne _ (dset_ne_nil inner0 c _),
        pyFalsyGet_some_ne _ hne]
    · have hv : UIUCCourseFetcher.fetch_section_list env u st s c =
          ((dget inner0 c).getD [], st) := by
        simp [UIUCCourseFetcher.fetch_section_list, hi0, pyFalsyGet_some_ne _ hi0ne, h2]
      rw [hv]
      exact hv

/-- Counterexample to C4: when the parsed course list is empty, the
truthiness cache test `if not self.course_list.get(subject)` fails to see
the cached entry, and the second call requests the same URL again. -/
theorem UIUCCourseFetcher.empty_course_list_refetches :
    (UIUCCourseFetcher.fetch_course_list UIUCCourseFetcher.emptyEnv UIUCCourseFetcher.sampleUrls
        ((UIUCCourseFetcher.fetch_course_list UIUCCourseFetcher.emptyEnv
          UIUCCourseFetcher.sampleUrls UIUCCourseFetcher.initState "CS").2) "CS").2.log =
      [UIUCCourseFetcher.courseUrl UIUCCourseFetcher.sampleUrls "CS",
       UIUCCourseFetcher.courseUrl UIUCCourseFetcher.sampleUrls "CS"] := by
  rfl

/-- C4 as amended: a second identical fetch is served from the cache with
no transport request provided the first call's parsed result is non-empty
(the subject list is cached even when empty; for the course and section
lists an empty result fails the truthiness cache test and is fetched
again); and `flush()` followed by the same fetch always issues a new
transport request. -/
theorem UIUCCourseFetcher.cache_semantics :
    (∀ (env : UIUCCourseFetcher.Env) (u : UIUCCourseFetcher.Urls)
        (st : UIUCCourseFetcher.FetchState),
        UIUCCourseFetcher.fetch_subject_list env u
            (UIUCCourseFetcher.fetch_subject_list env u st).2 =
          UIUCCourseFetcher.fetch_subject_list env u st) ∧
    (∀ (env : UIUCCourseFetcher.Env) (u : UIUCCourseFetcher.Urls)
        (st : UIUCCourseFetcher.FetchState) (s : String),
        (UIUCCourseFetcher.fetch_course_list env u st s).1 ≠ [] →
        UIUCCourseFetcher.fetch_course_list env u
            (UIUCCourseFetcher.fetch_course_list env u st s).2 s =
          UIUCCourseFetcher.fetch_course_list env u st s) ∧
    (∀ (env : UIUCCourseFetcher.Env) (u : UIUCCourseFetcher.Urls)
        (st : UIUCCourseFetcher.FetchState) (s : String) (c : UIUCCourseFetcher.CKey),
        (UIUCCourseFetcher.fetch_section_list env u st s c).1 ≠ [] →
        UIUCCourseFetcher.fetch_section_list env u
            (UIUCCourseFetcher.fetch_section_list env u st s c).2 s c =
          UIUCCourseFetcher.fetch_section_list env u st s c) ∧
    (∀ (env : UIUCCourseFetcher.Env) (u : UIUCCourseFetcher.Urls)
        (st : UIUCCourseFetcher.FetchState),
        (UIUCCourseFetcher.fetch_subject_list env u (UIUCCourseFetcher.flush st)).2.log =
          st.log ++ [u.portal]) ∧
    (∀ (env : UIUCCourseFetcher.Env) (u : UIUCCourseFetcher.Urls)
        (st : UIUCCourseFetcher.FetchState) (s : String),
        (UIUCCourseFetcher.fetch_course_list env u (UIUCCourseFetcher.flush st) s).2.log =
          st.log ++ [UIUCCourseFetcher.courseUrl u s]) ∧
    (∀ (env : UIUCCourseFetcher.Env) (u : UIUCCourseFetcher.Urls)
        (st : UIUCCourseFetcher.FetchState) (s : String) (c : UIUCCourseFetcher.CKey),
        (UIUCCourseFetcher.fetch_section_list env u (UIUCCourseFetcher.flush st) s c).2.log =
          st.log ++ [UIUCCourseFetcher.sectionUrl u s c]) := by
  refine ⟨UIUCCourseFetcher.fetch_subject_list_idem,
    UIUCCourseFetcher.fetch_course_list_idem,
    UIUCCourseFetcher.fetch_section_list_idem, ?_, ?_, ?_⟩ <;>
    intro env u st <;>
    simp [UIUCCourseFetcher.flush, UIUCCourseFetcher.fetch_subject_list,
      UIUCCourseFetcher.fetch_course_list, UIUCCourseFetcher.fetch_section_list,
      dget, UIUCCourseFetcher.pyFalsyGet, dget_dset_self]

/-- Witness for C4's amended claim: with a non-empty parsed course list
the second call is a complete no-op, likewise for the section list, and a
flushed fetch logs a fresh request. -/
theorem UIUCCourseFetcher.cache_semantics_witness :
    UIUCCourseFetcher.fetch_course_list UIUCCourseFetcher.sampleEnv UIUCCourseFetcher.sampleUrls
        ((UIUCCourseFetcher.fetch_course_list UIUCCourseFetcher.sampleEnv
          UIUCCourseFetcher.sampleUrls UIUCCourseFetcher.initState "CS").2) "CS" =
      UIUCCourseFetcher.fetch_course_list UIUCCourseFetcher.sampleEnv
        UIUCCourseFetcher.sampleUrls UIUCCourseFetcher.initState "CS" ∧
    UIUCCourseFetcher.fetch_section_list UIUCCourseFetcher.sampleEnv UIUCCourseFetcher.sampleUrls
        ((UIUCCourseFetcher.fetch_section_list UIUCCourseFetcher.sampleEnv
          UIUCCourseFetcher.sampleUrls UIUCCourseFetcher.initState "CS" (.inl "101")).2)
        "CS" (.inl "101") =
      UIUCCourseFetcher.fetch_section_list UIUCCourseFetcher.sampleEnv
        UIUCCourseFetcher.sampleUrls UIUCCourseFetcher.initState "CS" (.inl "101") ∧
    (UIUCCourseFetcher.fetch_course_list UIUCCourseFetcher.sampleEnv UIUCCourseFetcher.sampleUrls
        (UIUCCourseFetcher.flush UIUCCourseFetcher.initState) "CS").2.log =
      UIUCCourseFetcher.initState.log ++
        [UIUCCourseFetcher.courseUrl UIUCCourseFetcher.sampleUrls "CS"] := by
  refine ⟨?_, ?_, ?_⟩
  · exact UIUCCourseFetcher.cache_semantics.2.1 UIUCCourseFetcher.sampleEnv
      UIUCCourseFetcher.sampleUrls UIUCCourseFetcher.initState "CS" (by decide)
  · exact UIUCCourseFetcher.cache_semantics.2.2.1 UIUCCourseFetcher.sampleEnv
      UIUCCourseFetcher.sampleUrls UIUCCourseFetcher.initState "CS" (.inl "101") (by decide)
  · exact UIUCCourseFetcher.cache_semantics.2.2.2.2.1 UIUCCourseFetcher.sampleEnv
      UIUCCourseFetcher.sampleUrls UIUCCourseFetcher.initState "CS"

theorem UIUCCourseFetcher.consistent_initState (env : Env) (u : Urls) : consistent env u initState := by
  refine ⟨?_, ?_, ?_⟩
  · intro r h; simp [initState] at h
  · intro s r h; simp [initState, dget] at h
  · intro s inner c r h1 h2; simp [initState, dget] at h1

theorem UIUCCourseFetcher.fetch_course_list_consistent (env : Env) (u : Urls) (st : FetchState) (s : String)
    (hc : consistent env u st) :
    (fetch_course_list env u st s).1 = env.courseResult (courseUrl u s) ∧
    consistent env u (fetch_course_list env u st s).2 := by
  by_cases h1 : pyFalsyGet (dget st.course_list s) = true
  · have hv : fetch_course_list env u st s =
        (env.courseResult (courseUrl u s),
         { st with course_list := dset st.course_list s (env.courseResult (courseUrl u s)), log := st.log ++ [courseUrl u s] }) := by
      simp [fetch_course_list, h1]
    rw [hv]
    refine ⟨rfl, hc.1, ?_, hc.2.2⟩
    intro s' r' h'
    simp only at h'
    rw [dget_dset] at h'
    by_cases hss : s = s'
    · rw [if_pos hss] at h'
      subst hss
      exact (Option.some.inj h').symm
    · rw [if_neg hss] at h'
      exact hc.2.1 s' r' h'
  · obtain ⟨r0, hr0, hr0ne⟩ := pyFalsyGet_false (Bool.not_eq_true _ |>.mp h1)
    have hv : fetch_course_list env u st s = ((dget st.course_list s).getD [], st) := by
      simp [fetch_course_list, h1]
    rw [hv]
    refine ⟨?_, hc⟩
    rw [hr0]
    simpa using hc.2.1 s r0 hr0

theorem UIUCCourseFetcher.fetch_section_list_consistent (env : Env) (u : Urls) (st : FetchState) (s : String)
    (c : CKey) (hc : consistent env u st) :
    (fetch_section_list env u st s c).1 = env.sectionResult (sectionUrl u s c) ∧
    consistent env u (fetch_section_list env u st s c).2 := by
  by_cases h1 : pyFalsyGet (dget st.section_list s) = true
  · have hv : fetch_section_list env u st s c =
        (env.sectionResult (sectionUrl u s c),
         { st with section_list := dset (dset st.section_list s []) s (dset [] c (env.sectionResult (sectionUrl u s c))), log := st.log ++ [sectionUrl u s c] }) := by
      simp [fetch_section_list, h1, dget_dset_self, dget_nil, pyFalsyGet_none]
    rw [hv]
    refine ⟨rfl, hc.1, hc.2.1, ?_⟩
    intro s' inner' c' r' h1' h2'
    simp only at h1'
    rw [dset_dset, dget_dset] at h1'
    by_cases hss : s = s'
    · rw [if_pos hss] at h1'
      have hinner : inner' = dset [] c (env.sectionResult (sectionUrl u s c)) :=
        (Option.some.inj h1').symm
      subst hinner
      subst hss
      rw [dget_dset] at h2'
      by_cases hcc : c = c'
      · rw [if_pos hcc] at h2'
        subst hcc
        exact (Option.some.inj h2').symm
      · rw [if_neg hcc, dget_nil] at h2'
        cases h2'
    · rw [if_neg hss] at h1'
      exact hc.2.2 s' inner' c' r' h1' h2'
  · obtain ⟨inner0, hi0, hi0ne⟩ := pyFalsyGet_false (Bool.not_eq_true _ |>.mp h1)
    by_cases h2 : pyFalsyGet (dget inner0 c) = true
    · have hv : fetch_section_list env u st s c =
          (env.sectionResult (sectionUrl u s c),
           { st with section_list := dset st.section_list s (dset inner0 c (env.sectionResult (sectionUrl u s c))), log := st.log ++ [sectionUrl u s c] }) := by
        simp [fetch_section_list, hi0, pyFalsyGet_some_ne _ hi0ne, h2]
      rw [hv]
      refine ⟨rfl, hc.1, hc.2.1, ?_⟩
      intro s' inner' c' r' h1' h2'
      simp only at h1'
      rw [dget_dset] at h1'
      by_cases hss : s = s'
      · rw [if_pos hss] at h1'
        have hinner : inner' = dset inner0 c (env.sectionResult (sectionUrl u s c)) :=
          (Option.some.inj h1').symm
        subst hinner
        subst hss
        rw [dget_dset] at h2'
        by_cases hcc : c = c'
        · rw [if_pos hcc] at h2'
          subst hcc
          exact (Option.some.inj h2').symm
        · rw [if_neg hcc] at h2'
          exact hc.2.2 s inner0 c' r' hi0 h2'
      · rw [if_neg hss] at h1'
        exact hc.2.2 s' inner' c' r' h1' h2'
    · obtain ⟨r0, hd0, hr0ne⟩ := pyFalsyGet_false (Bool.not_eq_true _ |>.mp h2)
      have hv : fetch_section_list env u st s c = ((dget inner0 c).getD [], st) := by
        simp [fetch_section_list, hi0, pyFalsyGet_some_ne _ hi0ne, h2]
      rw [hv]
      refine ⟨?_, hc⟩
      rw [hd0]
      simpa using hc.2.2 s inner0 c r0 hi0 hd0

theorem UIUCCourseFetcher.fetchCourses_pure (env : Env) (u : Urls) (s : String) :
    ∀ (cl : List String) (inner : List (CKey × SecMap)) (st : FetchState),
      consistent env u st →
      (fetchCourses env u s cl (inner, st)).1 = pureCourses env u s cl inner ∧
      consistent env u (fetchCourses env u s cl (inner, st)).2 := by
  intro cl
  induction cl with
  | nil => intro inner st hc; exact ⟨rfl, hc⟩
  | cons c rest ih =>
    intro inner st hc
    have hsec := fetch_section_list_consistent env u st s (.inl c) hc
    rcases hgen : fetch_section_list env u st s (.inl c) with ⟨r, st1⟩
    rw [hgen] at hsec
    simp only at hsec
    obtain ⟨hr, hst1⟩ := hsec
    subst hr
    have he : fetchCourses env u s (c :: rest) (inner, st) =
        fetchCourses env u s rest
          (dset inner (.inl c) (env.sectionResult (sectionUrl u s (.inl c))), st1) := by
      simp only [fetchCourses, hgen]
    rw [he]
    exact ih _ st1 hst1

theorem UIUCCourseFetcher.fetchLoop_pure (env : Env) (u : Urls) :
    ∀ (l : List String) (out : List (String × List (CKey × SecMap))) (st : FetchState),
      consistent env u st →
      (fetchLoop env u l out st).1 = pureLoop env u l out ∧
      consistent env u (fetchLoop env u l out st).2 := by
  intro l
  induction l with
  | nil => intro out st hc; exact ⟨rfl, hc⟩
  | cons s rest ih =>
    intro out st hc
    have hcl := fetch_course_list_consistent env u st s hc
    rcases hgen : fetch_course_list env u st s with ⟨r, st1⟩
    rw [hgen] at hcl
    simp only at hcl
    obtain ⟨hr, hst1⟩ := hcl
    subst hr
    have hfc := fetchCourses_pure env u s (env.courseResult (courseUrl u s)) [] st1 hst1
    have he : fetchLoop env u (s :: rest) out st =
        fetchLoop env u rest
          (dset out s (fetchCourses env u s (env.courseResult (courseUrl u s)) ([], st1)).1)
          (fetchCourses env u s (env.courseResult (courseUrl u s)) ([], st1)).2 := by
      simp only [fetchLoop, hgen]
    rw [he, hfc.1]
    exact ih _ _ hfc.2

theorem UIUCCourseFetcher.dget_pureCourses_not_mem (env : Env) (u : Urls) (s : String) :
    ∀ (cl : List String) (inner : List (CKey × SecMap)) (k : CKey),
      (∀ c ∈ cl, (Sum.inl c : CKey) ≠ k) →
      dget (pureCourses env u s cl inner) k = dget inner k := by
  intro cl
  induction cl with
  | nil => intro inner k h; rfl
  | cons c rest ih =>
    intro inner k h
    rw [pureCourses, ih _ k (fun c' hc' => h c' (List.mem_cons_of_mem _ hc')),
      dget_dset_ne _ _ _ _ (h c (List.mem_cons_self c rest))]

theorem UIUCCourseFetcher.dget_pureCourses_mem (env : Env) (u : Urls) (s : String) :
    ∀ (cl : List String) (inner : List (CKey × SecMap)) (c : String),
      c ∈ cl →
      dget (pureCourses env u s cl inner) (.inl c) =
        some (env.sectionResult (sectionUrl u s (.inl c))) := by
  intro cl
  induction cl with
  | nil => intro inner c h; cases h
  | cons c0 rest ih =>
    intro inner c h
    by_cases hm : c ∈ rest
    · rw [pureCourses]; exact ih _ c hm
    · have hc0 : c0 = c := by
        rcases List.mem_cons.mp h with he | hm'
        · exact he.symm
        · exact absurd hm' hm
      subst hc0
      rw [pureCourses,
        dget_pureCourses_not_mem env u s rest _ (.inl c0)
          (fun c' hc' he => hm (Sum.inl.inj he ▸ hc')),
        dget_dset_self]

theorem UIUCCourseFetcher.dget_pureLoop_not_mem (env : Env) (u : Urls) :
    ∀ (l : List String) (out : List (String × List (CKey × SecMap))) (s : String),
      s ∉ l → dget (pureLoop env u l out) s = dget out s := by
  intro l
  induction l with
  | nil => intro out s h; rfl
  | cons a rest ih =>
    intro out s h
    have hne : a ≠ s := fun he => h (he ▸ List.mem_cons_self a rest)
    rw [pureLoop, ih _ s (fun hm => h (List.mem_cons_of_mem _ hm)), dget_dset_ne _ _ _ _ hne]

theorem UIUCCourseFetcher.dget_pureLoop_mem (env : Env) (u : Urls) :
    ∀ (l : List String) (out : List (String × List (CKey × SecMap))) (s : String),
      s ∈ l → dget (pureLoop env u l out) s = some (subjectEntry env u s) := by
  intro l
  induction l with
  | nil => intro out s h; cases h
  | cons a rest ih =>
    intro out s h
    by_cases hm : s ∈ rest
    · rw [pureLoop]; exact ih _ s hm
    · have ha : a = s := by
        rcases List.mem_cons.mp h with he | hm'
        · exact he.symm
        · exact absurd hm' hm
      subst ha
      rw [pureLoop, dget_pureLoop_not_mem env u rest _ a hm, dget_dset_self]

/-- C6: `fetch` called with a collection of subjects (course number
ignored) enumerates courses per subject and fetches sections for each,
returning the nested subject → course → CRN → Section mapping restricted
to exactly those subjects: assuming a cache consistent with the oracle
(e.g. a freshly flushed one), the result equals the pure recomputation
`pureLoop`, its keys are exactly the given subjects, and each subject maps
every course of its course list to that course's section mapping. -/
theorem UIUCCourseFetcher.fetch_list_restricts (env : Env) (u : Urls) (st : FetchState)
    (l : List String) (co : Option CKey) (hc : consistent env u st) :
    (fetch env u st (.list l) co).1 = pureLoop env u l [] ∧
    (∀ s, (dget (fetch env u st (.list l) co).1 s).isSome ↔ s ∈ l) ∧
    (∀ s, s ∈ l → dget (fetch env u st (.list l) co).1 s = some (subjectEntry env u s)) ∧
    (∀ s c, s ∈ l → c ∈ env.courseResult (courseUrl u s) →
        dget (subjectEntry env u s) (.inl c) =
          some (env.sectionResult (sectionUrl u s (.inl c)))) := by
  have hl : fetch env u st (.list l) co = fetchLoop env u l [] st := by
    cases co <;> rfl
  have hp := fetchLoop_pure env u l [] st hc
  rw [hl, hp.1]
  refine ⟨rfl, ?_, ?_, ?_⟩
  · intro s
    by_cases hm : s ∈ l
    · simp [dget_pureLoop_mem env u l [] s hm, hm]
    · simp [dget_pureLoop_not_mem env u l [] s hm, hm, dget_nil]
  · intro s hm
    exact dget_pureLoop_mem env u l [] s hm
  · intro s c hs hcmem
    exact dget_pureCourses_mem env u s _ [] c hcmem

/-- Witness for C6: fetching the subject list `["CS"]` from a fresh
fetcher yields exactly the pure recomputation, with `"CS"` present and an
unrequested subject absent. -/
theorem UIUCCourseFetcher.fetch_list_restricts_witness :
    (UIUCCourseFetcher.fetch UIUCCourseFetcher.sampleEnv UIUCCourseFetcher.sampleUrls
        UIUCCourseFetcher.initState (.list ["CS"]) none).1 =
      UIUCCourseFetcher.pureLoop UIUCCourseFetcher.sampleEnv
        UIUCCourseFetcher.sampleUrls ["CS"] [] ∧
    (dget (UIUCCourseFetcher.fetch UIUCCourseFetcher.sampleEnv UIUCCourseFetcher.sampleUrls
        UIUCCourseFetcher.initState (.list ["CS"]) none).1 "CS").isSome ∧
    ¬ (dget (UIUCCourseFetcher.fetch UIUCCourseFetcher.sampleEnv UIUCCourseFetcher.sampleUrls
        UIUCCourseFetcher.initState (.list ["CS"]) none).1 "MATH").isSome := by
  have h := UIUCCourseFetcher.fetch_list_restricts UIUCCourseFetcher.sampleEnv
    UIUCCourseFetcher.sampleUrls UIUCCourseFetcher.initState ["CS"] none
    (UIUCCourseFetcher.consistent_initState UIUCCourseFetcher.sampleEnv
      UIUCCourseFetcher.sampleUrls)
  refine ⟨h.1, (h.2.1 "CS").mpr (by decide), fun hx => absurd ((h.2.1 "MATH").mp hx) (by decide)⟩
